import Mathlib

/-!
# Verification of the gocourse course service

Shallow embedding of the course CRUD service: domain service
(`internal/course/service.go`), persistence gateway
(`internal/course/repository.go`), error values (`internal/course/error.go`)
and the endpoint layer.  External collaborators that are not part of this
repository (the `gocourse_meta` pagination helper, the `go_lib_response`
result kinds, the `gocourse_domain` course entity) are modelled from the
specification where noted.

Machine integers are modelled as `Int`/`Nat`; the values involved
(page/limit/total counts) never approach overflow in any claim considered.
`created_at`-descending ordering of `GetAll` results is not modelled: the
`created_at` column lives in the external `gocourse_domain` entity and no
claim below concerns result ordering.
-/

namespace GoCourse

instance {ε α : Type} [DecidableEq ε] [DecidableEq α] : DecidableEq (Except ε α) := fun a b =>
  match a, b with
  | .ok x, .ok y =>
    if h : x = y then .isTrue (by rw [h]) else .isFalse (by intro he; cases he; exact h rfl)
  | .ok _, .error _ => .isFalse (by intro he; cases he)
  | .error _, .ok _ => .isFalse (by intro he; cases he)
  | .error x, .error y =>
    if h : x = y then .isTrue (by rw [h]) else .isFalse (by intro he; cases he; exact h rfl)

/-! ## Calendar dates (`time.Time` restricted to `time.Parse("2006-01-02", s)`) -/

/-- A calendar date as produced by Go's `time.Parse("2006-01-02", s)`.
Only the date components matter: the service compares dates with
`time.Time.After` / `time.Time.Before` and all values are midnight UTC. -/
structure Date where
  year : Nat
  month : Nat
  day : Nat
deriving DecidableEq, Repr

/-- Injective key on valid dates; chronological order is lexicographic on
(year, month, day), i.e. order of `key` (month < 13, day < 32). -/
def Date.key (d : Date) : Nat :=
  (d.year * 13 + d.month) * 32 + d.day

/-- `a.Before(b)` of Go `time.Time` for parsed calendar dates. -/
def dateBefore (a b : Date) : Bool :=
  decide (a.key < b.key)

/-- `a.After(b)` of Go `time.Time` for parsed calendar dates. -/
def dateAfter (a b : Date) : Bool :=
  decide (b.key < a.key)

/-- Numeric value of a decimal digit character, `none` otherwise. -/
def digitVal (c : Char) : Option Nat :=
  if c.isDigit then some (c.toNat - 48) else none

def isLeapYear (y : Nat) : Bool :=
  y % 4 = 0 && (y % 100 ≠ 0 || y % 400 = 0)

def daysInMonth (y m : Nat) : Nat :=
  if m = 2 then (if isLeapYear y then 29 else 28)
  else if m = 4 ∨ m = 6 ∨ m = 9 ∨ m = 11 then 30
  else 31

/-- Go's `time.Parse("2006-01-02", s)`: fixed-width `YYYY-MM-DD`, with the
month and day validated against the calendar (leap years included).
`none` models a non-nil parse error. -/
def parseDate (s : String) : Option Date :=
  match s.toList with
  | [y1, y2, y3, y4, '-', m1, m2, '-', d1, d2] => do
      let a ← digitVal y1
      let b ← digitVal y2
      let c ← digitVal y3
      let d ← digitVal y4
      let me1 ← digitVal m1
      let me2 ← digitVal m2
      let de1 ← digitVal d1
      let de2 ← digitVal d2
      let y := ((a * 10 + b) * 10 + c) * 10 + d
      let m := me1 * 10 + me2
      let dd := de1 * 10 + de2
      if 1 ≤ m ∧ m ≤ 12 ∧ 1 ≤ dd ∧ dd ≤ daysInMonth y m then
        some ⟨y, m, dd⟩
      else
        none
  | _ => none

/-! ## The course entity

Modelled from the spec: `domain.Course` lives in the external
`gocourse_domain` module; the attributes used by this repository are
`id` (server-generated string), `name`, `start_date`, `end_date`. -/

structure Course where
  id : String
  name : String
  startDate : Date
  endDate : Date
deriving DecidableEq, Repr

/-! ## Errors (`internal/course/error.go`)

Go errors are modelled as a tree: `base` is an `errors.New` sentinel,
`notFound` is the `*ErrNotFound` struct carrying the course id, and
`wrap outer causeText` is `fmt.Errorf("%w: %v", outer, cause)` — the
`%w` operand becomes the `Unwrap` result, the `%v` operand survives
only as its message text. -/

inductive Err where
  | base (msg : String)
  | notFound (courseID : String)
  | wrap (outer : Err) (causeText : String)
deriving DecidableEq, Repr

def ErrInvalidDefaultLimitConfiguration : Err := .base "invalid default limit configuration"
def ErrIDRequired : Err := .base "id is required"
def ErrAtLeastOneFieldRequired : Err := .base "at least one field is required"
def ErrNameRequired : Err := .base "name is required"
def ErrStartDateAndEndDateRequired : Err := .base "start_date and end_date are required"
def ErrFailedToCreateCourse : Err := .base "failed to create course"
def ErrFailedToGetCourse : Err := .base "failed to get course"
def ErrFailedToGetAllCourses : Err := .base "failed to get all courses"
def ErrFailedToUpdateCourse : Err := .base "failed to update course"
def ErrFailedToDeleteCourse : Err := .base "failed to delete course"
def ErrFailedToCountCourses : Err := .base "failed to count courses"
def ErrInvalidStartDate : Err := .base "invalid start date format"
def ErrInvalidEndDate : Err := .base "invalid end date format"

/-- Sentinel base of `*ErrNotFound` (`ErrNotFound.Unwrap` returns it). -/
def ErrNotFoundBase : Err := .base "course not found"

/-- Modelled from the spec: `ErrStartDateAfterEndDate` is referenced by
`service.go` but declared in a repository file outside `src/`; the spec
names it the *start-after-end* date-order error, distinct from the
date-format sentinels. -/
def ErrStartDateAfterEndDate : Err := .base "start date is after end date"

/-- Modelled from the spec: `ErrEndDateBeforeStartDate` is referenced by
`service.go` but declared in a repository file outside `src/`; the spec
names it the *end-before-start* date-order error. -/
def ErrEndDateBeforeStartDate : Err := .base "end date is before start date"

/-- `err.Error()`: `*ErrNotFound` formats `"course with ID %s not found"`;
a `fmt.Errorf("%w: %v", outer, cause)` error formats
`outer.Error() ++ ": " ++ cause.Error()`. -/
def errMessage : Err → String
  | .base m => m
  | .notFound id => "course with ID " ++ id ++ " not found"
  | .wrap outer causeText => errMessage outer ++ ": " ++ causeText

/-- `errors.Unwrap`: `*ErrNotFound` unwraps to `ErrNotFoundBase`, a
`fmt.Errorf("%w: ...")` error unwraps to its `%w` operand, a plain
`errors.New` sentinel has no `Unwrap`. -/
def errUnwrap : Err → Option Err
  | .base _ => none
  | .notFound _ => some ErrNotFoundBase
  | .wrap outer _ => some outer

/-- `errors.Is(e, target)`: walk the `Unwrap` chain testing equality.
`*ErrNotFound` unwraps to `ErrNotFoundBase`; a wrap unwraps to its `%w`
operand; sentinels unwrap to nothing. -/
def errorsIs : Err → Err → Bool
  | e@(.base _), t => e == t
  | e@(.notFound _), t => e == t || ErrNotFoundBase == t
  | e@(.wrap outer _), t => e == t || errorsIs outer t

/-- `errors.As(e, &notFoundErr)` for target type `*ErrNotFound`: finds the
first `*ErrNotFound` in the unwrap chain and yields its course id. -/
def errorsAsNotFound : Err → Option String
  | .base _ => none
  | .notFound id => some id
  | .wrap outer _ => errorsAsNotFound outer

/-- The text of the `time.Parse` error for a rejected input.  The Go
message is a stdlib detail; no claim depends on its content, only on the
sentinel it is attached to, so it is abstracted to a fixed shape. -/
def timeParseErrMsg (s : String) : String :=
  "parsing time " ++ s ++ " as 2006-01-02: cannot parse"

/-- `fmt.Errorf("%w: %v", sentinel, cause)`. -/
def wrapErr (sentinel cause : Err) : Err :=
  .wrap sentinel (errMessage cause)

/-! ## Filters and the persistence gateway (`internal/course/repository.go`)

The gateway is backed by a GORM table; the table is modelled as a
`List Course` threaded through the write operations.  Store-level failures
other than zero-rows/not-found (connection loss etc.) are environmental and
are not produced by the model; the service layer is additionally analysed
against an arbitrary failing gateway below where a claim needs it. -/

structure Filters where
  name : String
deriving DecidableEq, Repr

/-- SQL `LIKE` pattern matching: `%` matches any (possibly empty) sequence,
`_` matches exactly one character, anything else matches itself. -/
def likeMatch : List Char → List Char → Bool
  | [] => fun s => s.isEmpty
  | c :: ps => fun s =>
    if c = '%' then s.tails.any (likeMatch ps)
    else if c = '_' then (match s with | [] => false | _ :: t => likeMatch ps t)
    else (match s with | [] => false | d :: t => (c == d) && likeMatch ps t)

/-- A pattern fragment with no SQL wildcard characters. -/
def noWildcards (l : List Char) : Bool :=
  l.all (fun c => !(c == '%') && !(c == '_'))

/-- Lowercasing as performed by `strings.ToLower` / SQL `LOWER` (the claims
only exercise ASCII, where `Char.toLower` agrees with both). -/
def lowerChars (s : String) : List Char :=
  s.toList.map Char.toLower

/-- `applyFilters`: with a non-empty name filter the query keeps rows with
`LOWER(name) LIKE '%' ++ strings.ToLower(filter) ++ '%'`; an empty filter
keeps every row. -/
def matchesFilter (f : Filters) (name : String) : Bool :=
  if f.name = "" then true
  else likeMatch ('%' :: (lowerChars f.name ++ ['%'])) (lowerChars name)

/-- `db.First(&course)` by primary key. -/
def findCourse (store : List Course) (id : String) : Option Course :=
  store.find? (fun c => c.id == id)

/-- `repo.Get`: `gorm.ErrRecordNotFound` is translated to `NewErrNotFound(id)`. -/
def repoGet (store : List Course) (id : String) : Except Err Course :=
  match findCourse store id with
  | none => .error (Err.notFound id)
  | some c => .ok c

/-- `repo.GetAll`: filter, offset, limit (ordering by `created_at desc` is a
property of the external entity and is not modelled; no claim concerns it). -/
def repoGetAll (store : List Course) (f : Filters) (offset limit : Int) :
    Except Err (List Course) :=
  .ok (((store.filter (fun c => matchesFilter f c.name)).drop offset.toNat).take limit.toNat)

/-- `repo.Count`. -/
def repoCount (store : List Course) (f : Filters) : Except Err Int :=
  .ok ((store.filter (fun c => matchesFilter f c.name)).length : Int)

/-- `repo.Delete`: `RowsAffected == 0` becomes `NewErrNotFound(id)`. -/
def repoDelete (store : List Course) (id : String) :
    Except Err Unit × List Course :=
  if store.any (fun c => c.id == id) then
    (.ok (), store.filter (fun c => !(c.id == id)))
  else
    (.error (Err.notFound id), store)

/-- The sparse column-update set of `repo.Update`: `name` only when non-nil
*and* non-empty, each date when non-nil. -/
def applyUpdates (name : Option String) (sd ed : Option Date) (c : Course) : Course :=
  { c with
    name := match name with
      | some n => if n = "" then c.name else n
      | none => c.name
    startDate := sd.getD c.startDate
    endDate := ed.getD c.endDate }

/-- `repo.Update`: applies the sparse update set to the rows matching the id;
`RowsAffected == 0` (no matching row) becomes `NewErrNotFound(id)`. -/
def repoUpdate (store : List Course) (id : String)
    (name : Option String) (sd ed : Option Date) :
    Except Err Unit × List Course :=
  if store.any (fun c => c.id == id) then
    (.ok (), store.map (fun c => if c.id == id then applyUpdates name sd ed c else c))
  else
    (.error (Err.notFound id), store)

/-! ## Gateway call trace

Several claims state that a gateway operation is *never invoked* on some
path; the service functions therefore also return the list of gateway
calls they performed. -/

inductive RepoCall where
  | createC (c : Course)
  | getC (id : String)
  | getAllC (f : Filters) (offset limit : Int)
  | deleteC (id : String)
  | updateC (id : String) (name : Option String) (sd ed : Option Date)
  | countC (f : Filters)
deriving DecidableEq, Repr

def RepoCall.isUpdateCall : RepoCall → Bool
  | .updateC _ _ _ _ => true
  | _ => false

def RepoCall.isWrite : RepoCall → Bool
  | .createC _ => true
  | .deleteC _ => true
  | .updateC _ _ _ _ => true
  | _ => false

/-! ## Domain service (`internal/course/service.go`)

This is the variant that validates the date invariant (the file at
`internal/course/service.go`; the spec mandates exactly these semantics in
§4.3 and §9). -/

/-- The error-translation pattern shared by `Get`/`GetAll`/`Delete`/`Update`:
```
var notFoundErr *ErrNotFound
if errors.As(err, &notFoundErr) || errors.Is(err, ErrNotFoundBase) {
    return err
}
return fmt.Errorf("%w: %v", sentinel, err)
``` -/
def svcTranslateError (sentinel e : Err) : Err :=
  if (errorsAsNotFound e).isSome || errorsIs e ErrNotFoundBase then e
  else wrapErr sentinel e

/-- `service.Get` against an arbitrary gateway `Get` (the gateway is an
interface in the source; the concrete store-backed instantiation is
`serviceGet` below). -/
def serviceGetWith (rget : String → Except Err Course) (id : String) :
    Except Err Course :=
  match rget id with
  | .ok c => .ok c
  | .error e => .error (svcTranslateError ErrFailedToGetCourse e)

/-- `service.Get` over the store-backed gateway. -/
def serviceGet (store : List Course) (id : String) : Except Err Course :=
  serviceGetWith (repoGet store) id

/-- `service.Count` against an arbitrary gateway `Count`: unlike the other
operations it wraps every failure, with no not-found passthrough. -/
def serviceCountWith (rcount : Filters → Except Err Int) (f : Filters) :
    Except Err Int :=
  match rcount f with
  | .ok n => .ok n
  | .error e => .error (wrapErr ErrFailedToCountCourses e)

/-- `service.Count` over the store-backed gateway. -/
def serviceCount (store : List Course) (f : Filters) : Except Err Int :=
  serviceCountWith (repoCount store) f

/-- `service.GetAll` over the store-backed gateway. -/
def serviceGetAll (store : List Course) (f : Filters) (offset limit : Int) :
    Except Err (List Course) :=
  match repoGetAll store f offset limit with
  | .ok cs => .ok cs
  | .error e => .error (svcTranslateError ErrFailedToGetAllCourses e)

/-- `service.Create`: parse both dates with the fixed layout (each failure
wrapped in its own sentinel), reject `start.After(end)`, then persist.
`genId` stands for the id the external `gocourse_domain` entity generates in
its create hook. -/
def serviceCreate (store : List Course) (genId : String)
    (name startDate endDate : String) :
    Except Err Course × List Course × List RepoCall :=
  match parseDate startDate with
  | none => (.error (Err.wrap ErrInvalidStartDate (timeParseErrMsg startDate)), store, [])
  | some startDateParsed =>
    match parseDate endDate with
    | none => (.error (Err.wrap ErrInvalidEndDate (timeParseErrMsg endDate)), store, [])
    | some endDateParsed =>
      if dateAfter startDateParsed endDateParsed then
        (.error ErrStartDateAfterEndDate, store, [])
      else
        let course : Course :=
          { id := genId, name := name,
            startDate := startDateParsed, endDate := endDateParsed }
        (.ok course, store ++ [course], [.createC course])

/-- `service.Delete`: delegate; not-found passes through, anything else is
wrapped with the delete sentinel. -/
def serviceDelete (store : List Course) (id : String) :
    Except Err Unit × List Course × List RepoCall :=
  match repoDelete store id with
  | (.ok _, store1) => (.ok (), store1, [.deleteC id])
  | (.error e, store1) =>
    (.error (svcTranslateError ErrFailedToDeleteCourse e), store1, [.deleteC id])

/-- `service.Update`: read the current course through `s.Get`, parse the
supplied date strings (sentinel-wrapped format errors), merge with the
stored dates into the effective pair, validate the pair
(`currentEnd.Before(currentStart)` inside the end-date block,
`currentStart.After(currentEnd)` afterwards), then persist only the
supplied fields. -/
def serviceUpdate (store : List Course) (id : String)
    (name : Option String) (startDate endDate : Option String) :
    Except Err Unit × List Course × List RepoCall :=
  match serviceGet store id with
  | .error e => (.error e, store, [.getC id])
  | .ok course =>
    let parsedStart : Except Err (Option Date) :=
      match startDate with
      | none => .ok none
      | some s =>
        match parseDate s with
        | none => .error (Err.wrap ErrInvalidStartDate (timeParseErrMsg s))
        | some d => .ok (some d)
    match parsedStart with
    | .error e => (.error e, store, [.getC id])
    | .ok startDateParsed =>
      let currentStartDate := startDateParsed.getD course.startDate
      let parsedEnd : Except Err (Option Date) :=
        match endDate with
        | none => .ok none
        | some s =>
          match parseDate s with
          | none => .error (Err.wrap ErrInvalidEndDate (timeParseErrMsg s))
          | some d => .ok (some d)
      match parsedEnd with
      | .error e => (.error e, store, [.getC id])
      | .ok endDateParsed =>
        let currentEndDate := endDateParsed.getD course.endDate
        if endDateParsed.isSome && dateBefore currentEndDate currentStartDate then
          (.error ErrEndDateBeforeStartDate, store, [.getC id])
        else if dateAfter currentStartDate currentEndDate then
          (.error ErrStartDateAfterEndDate, store, [.getC id])
        else
          match repoUpdate store id name startDateParsed endDateParsed with
          | (.ok _, store1) =>
            (.ok (), store1, [.getC id, .updateC id name startDateParsed endDateParsed])
          | (.error e, store1) =>
            (.error (svcTranslateError ErrFailedToUpdateCourse e), store1,
              [.getC id, .updateC id name startDateParsed endDateParsed])

/-- The successful outcome of `service.Update`'s per-field date handling:
an absent field parses to "no new value", a present field must parse with
the fixed layout.  (`none` here corresponds to the field's date-format
error path in `serviceUpdate`.) -/
def parsedField (o : Option String) : Option (Option Date) :=
  match o with
  | none => some none
  | some s => (parseDate s).map some

/-- The date-validation failures of the domain service: a
sentinel-wrapped date-format error on either field, or one of the two
date-order errors. -/
def isDateValidationErr (e : Err) : Bool :=
  errorsIs e ErrInvalidStartDate || errorsIs e ErrInvalidEndDate ||
    e == ErrEndDateBeforeStartDate || e == ErrStartDateAfterEndDate

/-! ## Result envelopes and pagination metadata

Modelled from the spec: the `go_lib_response` package (external) carries
exactly the classification `bad-request` / `not-found` / `internal` plus a
typed success payload with a status code and message (§6). -/

inductive EpResult (α : Type) where
  | success (status : Nat) (message : String) (data : α)
  | badRequest (msg : String)
  | notFound (msg : String)
  | internal (msg : String)
deriving Repr, DecidableEq

def EpResult.isBadRequest : EpResult α → Bool
  | .badRequest _ => true
  | _ => false

def EpResult.isNotFound : EpResult α → Bool
  | .notFound _ => true
  | _ => false

def EpResult.isInternal : EpResult α → Bool
  | .internal _ => true
  | _ => false

/-- Digits-only string to number, `none` when empty or non-digit. -/
def digitsToNat (l : List Char) : Option Nat :=
  match l with
  | [] => none
  | _ =>
    if l.all Char.isDigit then
      some (l.foldl (fun n c => n * 10 + (c.toNat - 48)) 0)
    else
      none

/-- Go's `strconv.Atoi`: optional sign followed by at least one decimal
digit (overflow of 64-bit ints is out of range for every claim). -/
def atoi (s : String) : Option Int :=
  match s.toList with
  | '-' :: rest => (digitsToNat rest).map (fun n => -(n : Int))
  | '+' :: rest => (digitsToNat rest).map (fun n => (n : Int))
  | l => (digitsToNat l).map (fun n => (n : Int))

/-- Pagination metadata (page, limit, total, offset, total pages). -/
structure Meta where
  page : Int
  limit : Int
  total : Int
  offset : Int
  totalPages : Int
deriving DecidableEq, Repr

/-- Modelled from the spec: `meta.New(page, limit, total, pageLimDef)` of the
external `gocourse_meta` package (§4.1): `limit` stays when positive,
otherwise the string-encoded default is parsed (a non-integer default is a
configuration error); `page` defaults to 1; `offset = (page-1)*limit`;
`total_pages = ceil(total/limit)`, 0 when the limit is 0 (division-by-zero
guard).  For a positive limit and non-negative total the ceiling is
`(total + limit - 1) / limit`. -/
def metaNew (page limit total : Int) (pageLimDef : String) : Except Err Meta :=
  match (if limit > 0 then some limit else atoi pageLimDef) with
  | none => .error ErrInvalidDefaultLimitConfiguration
  | some lim =>
    let pg := if page > 0 then page else 1
    let tp := if lim = 0 then 0 else (total + lim - 1) / lim
    .ok { page := pg, limit := lim, total := total,
          offset := (pg - 1) * lim, totalPages := tp }

/-! ## Endpoint layer (the `endpoint.go` file of the course package)

The transport has already produced a typed request value, so the
`request.(XxxReq)` type assertions always succeed in the model; the
endpoints return the result envelope together with the resulting store
and gateway call trace. -/

structure CreateReq where
  name : String
  startDate : String
  endDate : String

structure GetReq where
  id : String

structure DeleteReq where
  id : String

structure GetAllReq where
  name : String
  limit : Int
  page : Int

structure UpdateReq where
  id : String
  name : Option String
  startDate : Option String
  endDate : Option String

structure Config where
  limPageDef : String

/-- `makeCreateEndpoint`: require non-empty name and dates, call the
service, map any service failure to internal. -/
def makeCreateEndpoint (store : List Course) (genId : String) (req : CreateReq) :
    EpResult Course × List Course × List RepoCall :=
  if req.name = "" then
    (.badRequest (errMessage ErrNameRequired), store, [])
  else if req.startDate = "" ∨ req.endDate = "" then
    (.badRequest (errMessage ErrStartDateAndEndDateRequired), store, [])
  else
    match serviceCreate store genId req.name req.startDate req.endDate with
    | (.ok course, store1, calls) =>
      (.success 201 "Course created successfully" course, store1, calls)
    | (.error e, store1, calls) =>
      (.internal (errMessage e), store1, calls)

/-- `makeGetEndpoint`: require non-empty id; not-found maps to the
not-found result kind, anything else to internal. -/
def makeGetEndpoint (store : List Course) (req : GetReq) : EpResult Course :=
  if req.id = "" then
    .badRequest (errMessage ErrIDRequired)
  else
    match serviceGet store req.id with
    | .ok course => .success 200 "Course retrieved successfully" course
    | .error e =>
      if (errorsAsNotFound e).isSome || errorsIs e ErrNotFoundBase then
        .notFound (errMessage e)
      else
        .internal (errMessage e)

/-- `makeDeleteEndpoint`. -/
def makeDeleteEndpoint (store : List Course) (req : DeleteReq) :
    EpResult Unit × List Course × List RepoCall :=
  if req.id = "" then
    (.badRequest (errMessage ErrIDRequired), store, [])
  else
    match serviceDelete store req.id with
    | (.ok _, store1, calls) => (.success 200 "Course deleted successfully" (), store1, calls)
    | (.error e, store1, calls) =>
      if (errorsAsNotFound e).isSome || errorsIs e ErrNotFoundBase then
        (.notFound (errMessage e), store1, calls)
      else
        (.internal (errMessage e), store1, calls)

/-- `makeUpdateEndpoint`: require non-empty id, at least one optional field
present, and every present field non-empty, all before calling the service;
then not-found maps to not-found and other failures to internal. -/
def makeUpdateEndpoint (store : List Course) (req : UpdateReq) :
    EpResult Unit × List Course × List RepoCall :=
  if req.id = "" then
    (.badRequest (errMessage ErrIDRequired), store, [])
  else if req.name = none ∧ req.startDate = none ∧ req.endDate = none then
    (.badRequest (errMessage ErrAtLeastOneFieldRequired), store, [])
  else if req.name = some "" then
    (.badRequest (errMessage ErrNameRequired), store, [])
  else if req.startDate = some "" then
    (.badRequest (errMessage ErrStartDateAndEndDateRequired), store, [])
  else if req.endDate = some "" then
    (.badRequest (errMessage ErrStartDateAndEndDateRequired), store, [])
  else
    match serviceUpdate store req.id req.name req.startDate req.endDate with
    | (.ok _, store1, calls) => (.success 200 "Course updated successfully" (), store1, calls)
    | (.error e, store1, calls) =>
      if (errorsAsNotFound e).isSome || errorsIs e ErrNotFoundBase then
        (.notFound (errMessage e), store1, calls)
      else
        (.internal (errMessage e), store1, calls)

/-- `makeGetAllEndpoint`: substitute the configured default for a
non-positive limit (`strconv.Atoi` failure on the default is an internal
configuration error), substitute page 1 for a non-positive page, count,
build the metadata, then fetch the page at the metadata's offset/limit. -/
def makeGetAllEndpoint (config : Config) (store : List Course) (req : GetAllReq) :
    EpResult (List Course × Meta) :=
  let filters : Filters := { name := req.name }
  match (if req.limit ≤ 0 then atoi config.limPageDef else some req.limit) with
  | none => .internal "invalid default limit configuration"
  | some limit =>
    let page := if req.page ≤ 0 then 1 else req.page
    match serviceCount store filters with
    | .error e => .internal ("error counting courses: " ++ errMessage e)
    | .ok count =>
      match metaNew page limit count config.limPageDef with
      | .error e => .internal ("error generating metadata: " ++ errMessage e)
      | .ok metaData =>
        match serviceGetAll store filters metaData.offset metaData.limit with
        | .error e => .internal ("error retrieving courses: " ++ errMessage e)
        | .ok courses =>
          .success 200 "Courses retrieved successfully" (courses, metaData)

/-! ## Supporting lemmas -/

lemma findCourse_none_repoGet {store : List Course} {id : String}
    (h : findCourse store id = none) : repoGet store id = .error (Err.notFound id) := by
  simp [repoGet, h]

lemma findCourse_some_repoGet {store : List Course} {id : String} {c : Course}
    (h : findCourse store id = some c) : repoGet store id = .ok c := by
  simp [repoGet, h]

lemma findCourse_none_serviceGet {store : List Course} {id : String}
    (h : findCourse store id = none) :
    serviceGet store id = .error (Err.notFound id) := by
  simp [serviceGet, serviceGetWith, findCourse_none_repoGet h, svcTranslateError,
    errorsAsNotFound]

lemma findCourse_some_serviceGet {store : List Course} {id : String} {c : Course}
    (h : findCourse store id = some c) : serviceGet store id = .ok c := by
  simp [serviceGet, serviceGetWith, findCourse_some_repoGet h]

lemma findCourse_some_any {store : List Course} {id : String} {c : Course}
    (h : findCourse store id = some c) :
    store.any (fun x => x.id == id) = true := by
  unfold findCourse at h
  have hmem := List.mem_of_find?_eq_some h
  have hp := List.find?_some h
  exact List.any_eq_true.mpr ⟨c, hmem, hp⟩

lemma repoUpdate_error {store : List Course} {id : String}
    {name : Option String} {sd ed : Option Date} {e : Err} {st : List Course}
    (h : repoUpdate store id name sd ed = (.error e, st)) :
    e = Err.notFound id ∧ st = store := by
  unfold repoUpdate at h
  split at h
  · simp at h
  · simp only [Prod.mk.injEq, Except.error.injEq] at h
    exact ⟨h.1.symm, h.2.symm⟩

/-- Evaluation of `serviceUpdate` once the course exists and both supplied
date fields parse: the two order checks run on the effective pair, then the
sparse update is applied. -/
lemma serviceUpdate_eval {store : List Course} {id : String} {c : Course}
    (nm : Option String) {sdo edo : Option String} {sdp edp : Option Date}
    (h : findCourse store id = some c)
    (hps : parsedField sdo = some sdp) (hpe : parsedField edo = some edp) :
    serviceUpdate store id nm sdo edo =
      (if edp.isSome && dateBefore (edp.getD c.endDate) (sdp.getD c.startDate) then
        (.error ErrEndDateBeforeStartDate, store, [RepoCall.getC id])
      else if dateAfter (sdp.getD c.startDate) (edp.getD c.endDate) then
        (.error ErrStartDateAfterEndDate, store, [RepoCall.getC id])
      else
        (.ok (), store.map (fun r => if r.id == id then applyUpdates nm sdp edp r else r),
          [RepoCall.getC id, RepoCall.updateC id nm sdp edp])) := by
  have hany := findCourse_some_any h
  cases sdo with
  | none =>
    simp only [parsedField, Option.some.injEq] at hps
    subst hps
    cases edo with
    | none =>
      simp only [parsedField, Option.some.injEq] at hpe
      subst hpe
      simp [serviceUpdate, findCourse_some_serviceGet h, repoUpdate, hany]
    | some es =>
      rw [parsedField] at hpe
      obtain ⟨d, hd, hdp⟩ := Option.map_eq_some'.mp hpe
      subst hdp
      simp [serviceUpdate, findCourse_some_serviceGet h, hd, repoUpdate, hany]
  | some ss =>
    rw [parsedField] at hps
    obtain ⟨ds, hds, hdsp⟩ := Option.map_eq_some'.mp hps
    subst hdsp
    cases edo with
    | none =>
      simp only [parsedField, Option.some.injEq] at hpe
      subst hpe
      simp [serviceUpdate, findCourse_some_serviceGet h, hds, repoUpdate, hany]
    | some es =>
      rw [parsedField] at hpe
      obtain ⟨d, hd, hdp⟩ := Option.map_eq_some'.mp hpe
      subst hdp
      simp [serviceUpdate, findCourse_some_serviceGet h, hds, hd, repoUpdate, hany]

lemma findCourse_none_any {store : List Course} {id : String}
    (h : findCourse store id = none) :
    store.any (fun x => x.id == id) = false := by
  unfold findCourse at h
  rw [List.any_eq_false]
  intro x hx
  exact List.find?_eq_none.mp h x hx

lemma isDateValidationErr_notFound (id : String) :
    isDateValidationErr (Err.notFound id) = false := by
  simp [isDateValidationErr, errorsIs, ErrNotFoundBase, ErrInvalidStartDate,
    ErrInvalidEndDate, ErrEndDateBeforeStartDate, ErrStartDateAfterEndDate]

lemma dateValidationErr_not_notFound (e : Err)
    (h : isDateValidationErr e = true) :
    errorsAsNotFound e = none ∧ errorsIs e ErrNotFoundBase = false := by
  induction e with
  | base m =>
    refine ⟨rfl, ?_⟩
    simp only [isDateValidationErr, errorsIs, ErrInvalidStartDate, ErrInvalidEndDate,
      ErrEndDateBeforeStartDate, ErrStartDateAfterEndDate, Bool.or_eq_true,
      beq_iff_eq, Err.base.injEq] at h
    simp only [errorsIs, ErrNotFoundBase, beq_eq_false_iff_ne, ne_eq, Err.base.injEq]
    intro hm
    subst hm
    exact absurd h (by decide)
  | notFound id =>
    rw [isDateValidationErr_notFound] at h
    exact absurd h (by simp)
  | wrap outer c ih =>
    have h' : isDateValidationErr outer = true := by
      simp only [isDateValidationErr, errorsIs, Bool.or_eq_true, beq_iff_eq,
        ErrInvalidStartDate, ErrInvalidEndDate, ErrEndDateBeforeStartDate,
        ErrStartDateAfterEndDate] at h ⊢
      tauto
    refine ⟨(ih h').1, ?_⟩
    have h2 := (ih h').2
    rw [show errorsIs (Err.wrap outer c) ErrNotFoundBase =
      ((Err.wrap outer c == ErrNotFoundBase) || errorsIs outer ErrNotFoundBase) from rfl]
    rw [h2]
    simp [ErrNotFoundBase]

lemma likeMatch_pct_unfold (ps s : List Char) :
    likeMatch ('%' :: ps) s = s.tails.any (likeMatch ps) := rfl

lemma likeMatch_pct (ps s : List Char) :
    likeMatch ('%' :: ps) s = true ↔ ∃ t, t <:+ s ∧ likeMatch ps t = true := by
  rw [likeMatch_pct_unfold]
  simp [List.any_eq_true, List.mem_tails]

lemma likeMatch_pct_nil (s : List Char) : likeMatch ['%'] s = true := by
  rw [likeMatch_pct]
  exact ⟨[], List.nil_suffix, rfl⟩

lemma likeMatch_plain :
    ∀ f : List Char, noWildcards f = true →
      ∀ s, (likeMatch (f ++ ['%']) s = true ↔ f <+: s) := by
  intro f
  induction f with
  | nil =>
    intro _ s
    rw [List.nil_append, likeMatch_pct_nil]
    simp only [true_iff]
    exact ⟨s, rfl⟩
  | cons ch f ih =>
    intro hf s
    have hf' : noWildcards f = true := by
      simp only [noWildcards, List.all_cons, Bool.and_eq_true] at hf
      exact hf.2
    have hch : ¬ch = '%' ∧ ¬ch = '_' := by
      simp only [noWildcards, List.all_cons, Bool.and_eq_true] at hf
      simpa using hf.1
    cases s with
    | nil =>
      simp [likeMatch, hch.1, hch.2]
    | cons d t =>
      have hunf : likeMatch ((ch :: f) ++ ['%']) (d :: t)
          = ((ch == d) && likeMatch (f ++ ['%']) t) := by
        simp [likeMatch, hch.1, hch.2]
      rw [hunf]
      simp only [Bool.and_eq_true, beq_iff_eq, List.cons_prefix_cons]
      rw [ih hf' t]

lemma likeMatch_wrapped_pct (f : List Char) (hf : noWildcards f = true)
    (s : List Char) :
    likeMatch ('%' :: (f ++ ['%'])) s = true ↔ f <:+: s := by
  rw [likeMatch_pct]
  constructor
  · rintro ⟨t, ⟨u, hu⟩, hm⟩
    obtain ⟨v, hv⟩ := (likeMatch_plain f hf t).mp hm
    exact ⟨u, v, by rw [List.append_assoc, hv, hu]⟩
  · rintro ⟨u, v, huv⟩
    exact ⟨f ++ v, ⟨u, by rw [← List.append_assoc, huv]⟩,
      (likeMatch_plain f hf _).mpr ⟨v, rfl⟩⟩

lemma matchesFilter_eq_dec (f : String)
    (hw : noWildcards (lowerChars f) = true) (x : String) :
    matchesFilter ⟨f⟩ x = decide (lowerChars f <:+: lowerChars x) := by
  by_cases hf : f = ""
  · subst hf
    simp only [matchesFilter, if_pos rfl]
    have : lowerChars "" <:+: lowerChars x := ⟨[], lowerChars x, by simp [lowerChars]⟩
    simp [this]
  · simp only [matchesFilter, if_neg hf]
    rw [Bool.eq_iff_iff, decide_eq_true_iff]
    exact likeMatch_wrapped_pct (lowerChars f) hw (lowerChars x)

/-! ## Claims -/

/-- C8 counterexample: the claim that GetAll/Count match *exactly* the
rows whose name contains the filter as a case-insensitive substring fails
for filters containing SQL wildcard characters: the non-empty filter `"%"`
matches the stored name `"abc"` (and Count counts it) although `"%"` is
not a substring of `"abc"`. -/
theorem c8_counterexample :
    matchesFilter ⟨"%"⟩ "abc" = true ∧
    ¬ (lowerChars "%" <:+: lowerChars "abc") ∧
    repoCount [⟨"1", "abc", ⟨2024, 1, 1⟩, ⟨2024, 1, 1⟩⟩] ⟨"%"⟩ = .ok 1 := by
  decide

/-- C8 amended: for every filter whose lowercased text contains no SQL
wildcard character (`%`, `_`), the gateway filter matches a stored name
exactly when the lowercased filter is a substring of the lowercased name,
and GetAll and Count operate on exactly the rows so matched; an empty
filter matches every row.  A wildcard character in the filter is instead
interpreted by SQL `LIKE`. -/
theorem c8_filter_ci_substring (f : String)
    (hw : noWildcards (lowerChars f) = true) :
    (∀ nm : String,
      (matchesFilter ⟨f⟩ nm = true ↔ lowerChars f <:+: lowerChars nm)) ∧
    (∀ nm : String, matchesFilter ⟨""⟩ nm = true) ∧
    (∀ store : List Course,
      repoCount store ⟨f⟩ =
        .ok ((store.filter
          (fun c => decide (lowerChars f <:+: lowerChars c.name))).length : Int) ∧
      (∀ offset limit : Int,
        repoGetAll store ⟨f⟩ offset limit =
          .ok (((store.filter
            (fun c => decide (lowerChars f <:+: lowerChars c.name))).drop
              offset.toNat).take limit.toNat))) := by
  have hdec := matchesFilter_eq_dec f hw
  refine ⟨?_, fun nm => rfl, ?_⟩
  · intro nm
    rw [hdec nm, decide_eq_true_iff]
  · intro store
    have hfil : store.filter (fun c => matchesFilter ⟨f⟩ c.name) =
        store.filter (fun c => decide (lowerChars f <:+: lowerChars c.name)) :=
      List.filter_congr (fun c _ => hdec c.name)
    exact ⟨by rw [repoCount, hfil], fun offset limit => by rw [repoGetAll, hfil]⟩

/-- C8 witness: the wildcard-free filter "course" matches the stored name
"Intro Course", and the empty filter matches an arbitrary name. -/
theorem c8_witness :
    matchesFilter ⟨"course"⟩ "Intro Course" = true ∧
    matchesFilter ⟨""⟩ "Whatever" = true :=
  ⟨((c8_filter_ci_substring "course" (by decide)).1 "Intro Course").mpr (by decide),
   (c8_filter_ci_substring "course" (by decide)).2.1 "Whatever"⟩

/-- C3: for a GetAll request whose configured default limit parses to a
positive integer, the endpoint succeeds with metadata whose limit is the
requested limit when positive and the parsed default otherwise, whose
page is the requested page when positive and 1 otherwise, whose offset is
`(page-1)*limit`, and whose total-pages field is the ceiling of
`total/limit` — witnessed by the two standard ceiling inequalities — while
a non-positive requested limit combined with a non-integer default-limit
string yields the internal configuration error. -/
theorem c3_getall_pagination
    (cfg : Config) (store : List Course) (req : GetAllReq) (d : Int)
    (hparse : atoi cfg.limPageDef = some d) (hd : 0 < d) :
    (∀ effLimit effPage total : Int,
      effLimit = (if 0 < req.limit then req.limit else d) →
      effPage = (if 0 < req.page then req.page else 1) →
      total = ((store.filter (fun c => matchesFilter ⟨req.name⟩ c.name)).length : Int) →
      makeGetAllEndpoint cfg store req =
        .success 200 "Courses retrieved successfully"
          (((store.filter (fun c => matchesFilter ⟨req.name⟩ c.name)).drop
              ((effPage - 1) * effLimit).toNat).take effLimit.toNat,
            ⟨effPage, effLimit, total, (effPage - 1) * effLimit,
              (total + effLimit - 1) / effLimit⟩) ∧
        total ≤ ((total + effLimit - 1) / effLimit) * effLimit ∧
        (((total + effLimit - 1) / effLimit) - 1) * effLimit < total) ∧
    (∀ cfg2 : Config, req.limit ≤ 0 → atoi cfg2.limPageDef = none →
      makeGetAllEndpoint cfg2 store req =
        .internal "invalid default limit configuration") := by
  constructor
  · intro effLimit effPage total hL hP hT
    have hl : 0 < effLimit := by
      rw [hL]; split <;> omega
    have htot : 0 ≤ total := by
      rw [hT]; exact Int.ofNat_nonneg _
    have hscrut : (if req.limit ≤ 0 then atoi cfg.limPageDef else some req.limit) =
        some effLimit := by
      rw [hL]
      by_cases hc : req.limit ≤ 0
      · rw [if_pos hc, if_neg (by omega), hparse]
      · rw [if_neg hc, if_pos (by omega)]
    constructor
    · have hcount : serviceCount store ⟨req.name⟩ =
          .ok ((store.filter (fun c => matchesFilter ⟨req.name⟩ c.name)).length : Int) := rfl
      have hpg : (if (if req.page ≤ 0 then (1 : Int) else req.page) > 0 then
          (if req.page ≤ 0 then (1 : Int) else req.page) else 1) = effPage := by
        rw [hP]
        by_cases hp : req.page ≤ 0
        · rw [if_pos hp, if_pos (by omega : (1 : Int) > 0), if_neg (by omega : ¬(0 : Int) < req.page)]
        · rw [if_neg hp, if_pos (by omega : req.page > (0 : Int))]
      have hmeta : metaNew (if req.page ≤ 0 then (1 : Int) else req.page) effLimit
          total cfg.limPageDef =
          .ok ⟨effPage, effLimit, total, (effPage - 1) * effLimit,
            (total + effLimit - 1) / effLimit⟩ := by
        unfold metaNew
        rw [if_pos hl]
        dsimp only
        rw [hpg, if_neg (by omega : ¬(effLimit = 0))]
      have hgetall : serviceGetAll store ⟨req.name⟩ ((effPage - 1) * effLimit) effLimit =
          .ok (((store.filter (fun c => matchesFilter ⟨req.name⟩ c.name)).drop
            ((effPage - 1) * effLimit).toNat).take effLimit.toNat) := rfl
      unfold makeGetAllEndpoint
      rw [hscrut]
      dsimp only
      rw [hcount, ← hT]
      dsimp only
      rw [hmeta]
      dsimp only
      rw [hgetall]
    · have h1 : ((total + effLimit - 1) / effLimit) * effLimit ≤ total + effLimit - 1 :=
        Int.ediv_mul_le _ (by omega)
      have h2 : total + effLimit - 1 <
          ((total + effLimit - 1) / effLimit + 1) * effLimit :=
        Int.lt_ediv_add_one_mul_self _ hl
      rw [add_mul, one_mul] at h2
      constructor
      · linarith
      · rw [sub_mul, one_mul]
        linarith
  · intro cfg2 hlim hnone
    unfold makeGetAllEndpoint
    rw [if_pos hlim, hnone]

/-- C3 witness: with default "10" and 95 stored rows, requesting limit 10
page 3 yields offset 20 and 10 total pages; defaulted limit and page give
limit 10, page 1; a non-integer default with non-positive requested limit
is the internal configuration error. -/
theorem c3_witness :
    makeGetAllEndpoint ⟨"10"⟩
        (List.replicate 95 (⟨"a", "N", ⟨2024, 1, 1⟩, ⟨2024, 1, 2⟩⟩ : Course))
        ⟨"", 10, 3⟩ =
      .success 200 "Courses retrieved successfully"
        (List.replicate 10 (⟨"a", "N", ⟨2024, 1, 1⟩, ⟨2024, 1, 2⟩⟩ : Course),
          ⟨3, 10, 95, 20, 10⟩) ∧
    makeGetAllEndpoint ⟨"10"⟩
        (List.replicate 95 (⟨"a", "N", ⟨2024, 1, 1⟩, ⟨2024, 1, 2⟩⟩ : Course))
        ⟨"", 0, 0⟩ =
      .success 200 "Courses retrieved successfully"
        (List.replicate 10 (⟨"a", "N", ⟨2024, 1, 1⟩, ⟨2024, 1, 2⟩⟩ : Course),
          ⟨1, 10, 95, 0, 10⟩) ∧
    makeGetAllEndpoint ⟨"abc"⟩
        (List.replicate 95 (⟨"a", "N", ⟨2024, 1, 1⟩, ⟨2024, 1, 2⟩⟩ : Course))
        ⟨"", 0, 3⟩ =
      .internal "invalid default limit configuration" := by
  refine ⟨?_, ?_, ?_⟩
  · have h := ((c3_getall_pagination ⟨"10"⟩
      (List.replicate 95 (⟨"a", "N", ⟨2024, 1, 1⟩, ⟨2024, 1, 2⟩⟩ : Course))
      ⟨"", 10, 3⟩ 10 (by decide) (by decide)).1 10 3 95
      (by decide) (by decide) (by decide)).1
    exact h.trans (by decide)
  · have h := ((c3_getall_pagination ⟨"10"⟩
      (List.replicate 95 (⟨"a", "N", ⟨2024, 1, 1⟩, ⟨2024, 1, 2⟩⟩ : Course))
      ⟨"", 0, 0⟩ 10 (by decide) (by decide)).1 10 1 95
      (by decide) (by decide) (by decide)).1
    exact h.trans (by decide)
  · exact (c3_getall_pagination ⟨"10"⟩
      (List.replicate 95 (⟨"a", "N", ⟨2024, 1, 1⟩, ⟨2024, 1, 2⟩⟩ : Course))
      ⟨"", 0, 3⟩ 10 (by decide) (by decide)).2 ⟨"abc"⟩ (by decide) (by decide)

/-- C4: for an id with no matching stored row, the gateway produces the
dedicated `*ErrNotFound` value — a distinguishable error kind carrying the
requested id (recoverable by `errors.As`, matched by `errors.Is` with the
base sentinel), whose message embeds the id; `Get`, `Update` and `Delete`
of the domain service propagate that very value unchanged; and for a
non-empty id each endpoint maps it to the not-found result kind with the
same id-carrying message. -/
theorem c4_notFound_end_to_end
    (store : List Course) (id : String)
    (h : findCourse store id = none) :
    repoGet store id = .error (Err.notFound id) ∧
    serviceGet store id = .error (Err.notFound id) ∧
    (serviceDelete store id).1 = .error (Err.notFound id) ∧
    (∀ (nm : Option String) (sdo edo : Option String),
      (serviceUpdate store id nm sdo edo).1 = .error (Err.notFound id)) ∧
    errorsAsNotFound (Err.notFound id) = some id ∧
    errorsIs (Err.notFound id) ErrNotFoundBase = true ∧
    errMessage (Err.notFound id) = "course with ID " ++ id ++ " not found" ∧
    (id ≠ "" →
      makeGetEndpoint store ⟨id⟩ =
        .notFound ("course with ID " ++ id ++ " not found") ∧
      (makeDeleteEndpoint store ⟨id⟩).1 =
        .notFound ("course with ID " ++ id ++ " not found") ∧
      (∀ n : String, n ≠ "" →
        (makeUpdateEndpoint store ⟨id, some n, none, none⟩).1 =
          .notFound ("course with ID " ++ id ++ " not found"))) := by
  have hanyf := findCourse_none_any h
  have hget := findCourse_none_serviceGet h
  refine ⟨findCourse_none_repoGet h, hget, ?_, ?_, rfl, by simp [errorsIs], rfl, ?_⟩
  · simp [serviceDelete, repoDelete, hanyf, svcTranslateError, errorsAsNotFound]
  · intro nm sdo edo
    simp [serviceUpdate, hget]
  · intro hid
    have hupd : ∀ nm : Option String,
        serviceUpdate store id nm none none =
          (.error (Err.notFound id), store, [RepoCall.getC id]) := by
      intro nm
      simp [serviceUpdate, hget]
    refine ⟨?_, ?_, ?_⟩
    · simp [makeGetEndpoint, hid, hget, errorsAsNotFound, errMessage]
    · simp [makeDeleteEndpoint, hid, serviceDelete, repoDelete, hanyf,
        svcTranslateError, errorsAsNotFound, errMessage]
    · intro n hn
      simp [makeUpdateEndpoint, hid, hn, hupd, errorsAsNotFound, errMessage]

/-- C4 witness: a concrete missing id "zz" on a one-course store is
reported as not-found with the id in the message at the gateway, the
service and all three endpoints. -/
theorem c4_witness :
    makeGetEndpoint [⟨"a", "Go", ⟨2024, 5, 10⟩, ⟨2024, 5, 20⟩⟩] ⟨"zz"⟩ =
      .notFound "course with ID zz not found" ∧
    (makeDeleteEndpoint [⟨"a", "Go", ⟨2024, 5, 10⟩, ⟨2024, 5, 20⟩⟩] ⟨"zz"⟩).1 =
      .notFound "course with ID zz not found" ∧
    (makeUpdateEndpoint [⟨"a", "Go", ⟨2024, 5, 10⟩, ⟨2024, 5, 20⟩⟩]
        ⟨"zz", some "New", none, none⟩).1 =
      .notFound "course with ID zz not found" := by
  have hc := (c4_notFound_end_to_end [⟨"a", "Go", ⟨2024, 5, 10⟩, ⟨2024, 5, 20⟩⟩]
    "zz" (by decide)).2.2.2.2.2.2.2 (by decide)
  exact ⟨hc.1, hc.2.1, hc.2.2 "New" (by decide)⟩

/-- C9: `service.Update` is atomic with respect to its validation
failures: whenever it fails with a date-format (either field) or
date-order (end-before-start / start-after-end) error, the store is
returned unchanged and the only gateway call performed is the initial
read — the gateway's `Update` is never invoked. -/
theorem c9_update_validation_atomic
    (store : List Course) (id : String) (nm : Option String)
    (sdo edo : Option String) (res : Except Err Unit) (st : List Course)
    (calls : List RepoCall) (e : Err)
    (hrun : serviceUpdate store id nm sdo edo = (res, st, calls))
    (herr : res = .error e)
    (hval : isDateValidationErr e = true) :
    st = store ∧ calls = [RepoCall.getC id] := by
  subst herr
  unfold serviceUpdate at hrun
  split at hrun
  · simp only [Prod.mk.injEq, Except.error.injEq] at hrun
    exact ⟨hrun.2.1.symm, hrun.2.2.symm⟩
  · dsimp only at hrun
    split at hrun
    · simp only [Prod.mk.injEq, Except.error.injEq] at hrun
      exact ⟨hrun.2.1.symm, hrun.2.2.symm⟩
    · split at hrun
      · simp only [Prod.mk.injEq, Except.error.injEq] at hrun
        exact ⟨hrun.2.1.symm, hrun.2.2.symm⟩
      · split at hrun
        · simp only [Prod.mk.injEq, Except.error.injEq] at hrun
          exact ⟨hrun.2.1.symm, hrun.2.2.symm⟩
        · split at hrun
          · simp only [Prod.mk.injEq, Except.error.injEq] at hrun
            exact ⟨hrun.2.1.symm, hrun.2.2.symm⟩
          · split at hrun
            · simp at hrun
            · rename_i e1 store1 hrepo
              have hne := repoUpdate_error hrepo
              simp only [Prod.mk.injEq, Except.error.injEq] at hrun
              rw [hne.1] at hrun
              rw [← hrun.1] at hval
              simp [svcTranslateError, errorsAsNotFound] at hval
              rw [isDateValidationErr_notFound] at hval
              exact absurd hval (by simp)

/-- C9 witness: a concrete end-before-start failure satisfies the
hypotheses, and the store and call trace are exactly those of the initial
read. -/
theorem c9_witness :
    serviceUpdate [⟨"a", "Go", ⟨2024, 5, 10⟩, ⟨2024, 5, 20⟩⟩] "a"
        none none (some "2024-05-01") =
      (.error ErrEndDateBeforeStartDate,
        [⟨"a", "Go", ⟨2024, 5, 10⟩, ⟨2024, 5, 20⟩⟩], [RepoCall.getC "a"]) ∧
    isDateValidationErr ErrEndDateBeforeStartDate = true ∧
    ([⟨"a", "Go", ⟨2024, 5, 10⟩, ⟨2024, 5, 20⟩⟩] =
        [(⟨"a", "Go", ⟨2024, 5, 10⟩, ⟨2024, 5, 20⟩⟩ : Course)] ∧
      [RepoCall.getC "a"] = [RepoCall.getC "a"]) :=
  ⟨by decide, by decide,
    c9_update_validation_atomic [⟨"a", "Go", ⟨2024, 5, 10⟩, ⟨2024, 5, 20⟩⟩] "a"
      none none (some "2024-05-01") (.error ErrEndDateBeforeStartDate)
      [⟨"a", "Go", ⟨2024, 5, 10⟩, ⟨2024, 5, 20⟩⟩] [RepoCall.getC "a"]
      ErrEndDateBeforeStartDate (by decide) rfl (by decide)⟩

/-- C5 counterexample: the claim that unwrapping the service's wrapped
error recovers the original underlying error is false — for a gateway
`Get` failing with a generic cause, `errors.Unwrap` of the service error
yields the "failed to get course" sentinel, not the cause, and
`errors.Is` against the cause fails. -/
theorem c5_counterexample :
    serviceGetWith (fun _ => .error (Err.base "connection refused")) "x" =
      .error (Err.wrap ErrFailedToGetCourse "connection refused") ∧
    errUnwrap (Err.wrap ErrFailedToGetCourse "connection refused") =
      some ErrFailedToGetCourse ∧
    errUnwrap (Err.wrap ErrFailedToGetCourse "connection refused") ≠
      some (Err.base "connection refused") ∧
    errorsIs (Err.wrap ErrFailedToGetCourse "connection refused")
      (Err.base "connection refused") = false := by
  decide

/-- C5 amended: for every underlying failure that is not a not-found
error, the service returns `fmt.Errorf("%w: %v", sentinel, cause)`: the
sentinel is recovered by unwrapping and testable with `errors.Is`, while
the underlying cause survives only as message text appended after the
sentinel's message (it is not itself recoverable by unwrapping). -/
theorem c5_service_wraps_sentinel
    (e : Err) (hnf : errorsAsNotFound e = none)
    (hnb : errorsIs e ErrNotFoundBase = false) (id : String) (f : Filters) :
    (serviceGetWith (fun _ => .error e) id =
        .error (wrapErr ErrFailedToGetCourse e) ∧
      errUnwrap (wrapErr ErrFailedToGetCourse e) = some ErrFailedToGetCourse ∧
      errorsIs (wrapErr ErrFailedToGetCourse e) ErrFailedToGetCourse = true ∧
      errMessage (wrapErr ErrFailedToGetCourse e) =
        "failed to get course" ++ ": " ++ errMessage e) ∧
    (serviceCountWith (fun _ => .error e) f =
        .error (wrapErr ErrFailedToCountCourses e) ∧
      errUnwrap (wrapErr ErrFailedToCountCourses e) = some ErrFailedToCountCourses ∧
      errorsIs (wrapErr ErrFailedToCountCourses e) ErrFailedToCountCourses = true ∧
      errMessage (wrapErr ErrFailedToCountCourses e) =
        "failed to count courses" ++ ": " ++ errMessage e) := by
  refine ⟨⟨?_, rfl, ?_, rfl⟩, ⟨rfl, rfl, ?_, rfl⟩⟩
  · simp [serviceGetWith, svcTranslateError, hnf, hnb]
  · simp [wrapErr, errorsIs, ErrFailedToGetCourse]
  · simp [wrapErr, errorsIs, ErrFailedToCountCourses]

/-- C5 witness: a concrete generic gateway failure is wrapped by both
`Get` and `Count` with their sentinels, with the cause text attached. -/
theorem c5_witness :
    serviceGetWith (fun _ => .error (Err.base "disk failure")) "x" =
      .error (wrapErr ErrFailedToGetCourse (Err.base "disk failure")) ∧
    serviceCountWith (fun _ => .error (Err.base "disk failure")) ⟨""⟩ =
      .error (wrapErr ErrFailedToCountCourses (Err.base "disk failure")) :=
  ⟨((c5_service_wraps_sentinel (Err.base "disk failure") (by decide) (by decide)
      "x" ⟨""⟩).1).1,
   ((c5_service_wraps_sentinel (Err.base "disk failure") (by decide) (by decide)
      "x" ⟨""⟩).2).1⟩

/-- C6 counterexample: the claim that the endpoint layer classifies
date-format and date-order failures as bad-request validation results is
false — a create request with well-formed but inverted dates, and an
update supplying only an end date earlier than the stored start date, are
both surfaced as internal results, not bad-request. -/
theorem c6_counterexample :
    (makeCreateEndpoint [] "g" ⟨"Go", "2024-01-02", "2024-01-01"⟩).1 =
      .internal (errMessage ErrStartDateAfterEndDate) ∧
    (makeCreateEndpoint [] "g" ⟨"Go", "2024-01-02", "2024-01-01"⟩).1.isBadRequest
      = false ∧
    (makeUpdateEndpoint [⟨"a", "Go", ⟨2024, 5, 10⟩, ⟨2024, 5, 20⟩⟩]
        ⟨"a", none, none, some "2024-05-01"⟩).1 =
      .internal (errMessage ErrEndDateBeforeStartDate) ∧
    (makeUpdateEndpoint [⟨"a", "Go", ⟨2024, 5, 10⟩, ⟨2024, 5, 20⟩⟩]
        ⟨"a", none, none, some "2024-05-01"⟩).1.isBadRequest = false := by
  decide

/-- C6 amended: the endpoint layer maps every service failure of Create,
and every date-format/date-order failure of Update, to the *internal*
result kind (carrying the error's message); only the request-shape checks
of the endpoints themselves produce bad-request results. -/
theorem c6_endpoint_maps_date_errors_to_internal :
    (∀ (store : List Course) (genId : String) (req : CreateReq) (e : Err)
        (store1 : List Course) (calls : List RepoCall),
      req.name ≠ "" → req.startDate ≠ "" → req.endDate ≠ "" →
      serviceCreate store genId req.name req.startDate req.endDate =
        (.error e, store1, calls) →
      (makeCreateEndpoint store genId req).1 = .internal (errMessage e)) ∧
    (∀ (store : List Course) (req : UpdateReq) (e : Err)
        (store1 : List Course) (calls : List RepoCall),
      req.id ≠ "" →
      ¬(req.name = none ∧ req.startDate = none ∧ req.endDate = none) →
      req.name ≠ some "" → req.startDate ≠ some "" → req.endDate ≠ some "" →
      serviceUpdate store req.id req.name req.startDate req.endDate =
        (.error e, store1, calls) →
      isDateValidationErr e = true →
      (makeUpdateEndpoint store req).1 = .internal (errMessage e)) := by
  constructor
  · intro store genId req e store1 calls hn hs he hrun
    simp [makeCreateEndpoint, hn, hs, he, hrun]
  · intro store req e store1 calls hid hall hn hs he hrun hval
    have hnn := dateValidationErr_not_notFound e hval
    simp [makeUpdateEndpoint, hid, hall, hn, hs, he, hrun, hnn.1, hnn.2]

/-- C6 witness: concrete inverted-date create and end-before-start update
requests are mapped to internal results with the date error's message. -/
theorem c6_witness :
    (makeCreateEndpoint [] "g" ⟨"Go", "2024-03-02", "2024-03-01"⟩).1 =
      .internal (errMessage ErrStartDateAfterEndDate) ∧
    (makeUpdateEndpoint [⟨"b", "Go", ⟨2024, 5, 10⟩, ⟨2024, 5, 20⟩⟩]
        ⟨"b", none, none, some "2024-04-01"⟩).1 =
      .internal (errMessage ErrEndDateBeforeStartDate) :=
  ⟨c6_endpoint_maps_date_errors_to_internal.1 [] "g"
      ⟨"Go", "2024-03-02", "2024-03-01"⟩ ErrStartDateAfterEndDate [] []
      (by decide) (by decide) (by decide) (by decide),
   c6_endpoint_maps_date_errors_to_internal.2
      [⟨"b", "Go", ⟨2024, 5, 10⟩, ⟨2024, 5, 20⟩⟩]
      ⟨"b", none, none, some "2024-04-01"⟩ ErrEndDateBeforeStartDate
      [⟨"b", "Go", ⟨2024, 5, 10⟩, ⟨2024, 5, 20⟩⟩] [RepoCall.getC "b"]
      (by decide) (by decide) (by decide) (by decide) (by decide)
      (by decide) (by decide)⟩

/-- C7: the update endpoint yields a bad-request validation result exactly
when the id is empty, or no optional field is present, or a present field
is the empty string — and in every such case it does so before the service
runs: the store is untouched and no gateway call happens.  In particular a
present-but-empty field is rejected while an absent field is not. -/
theorem c7_update_endpoint_validation
    (store : List Course) (req : UpdateReq) :
    ((makeUpdateEndpoint store req).1.isBadRequest = true ↔
      (req.id = "" ∨
        (req.name = none ∧ req.startDate = none ∧ req.endDate = none) ∨
        req.name = some "" ∨ req.startDate = some "" ∨ req.endDate = some "")) ∧
    ((makeUpdateEndpoint store req).1.isBadRequest = true →
      (makeUpdateEndpoint store req).2.1 = store ∧
      (makeUpdateEndpoint store req).2.2 = []) := by
  unfold makeUpdateEndpoint
  split
  · rename_i h1
    exact ⟨by simp [EpResult.isBadRequest, h1], fun _ => ⟨rfl, rfl⟩⟩
  · rename_i h1
    split
    · rename_i h2
      exact ⟨by simp [EpResult.isBadRequest, h2], fun _ => ⟨rfl, rfl⟩⟩
    · rename_i h2
      split
      · rename_i h3
        exact ⟨by simp [EpResult.isBadRequest, h1, h3], fun _ => ⟨rfl, rfl⟩⟩
      · rename_i h3
        split
        · rename_i h4
          exact ⟨by simp [EpResult.isBadRequest, h1, h4], fun _ => ⟨rfl, rfl⟩⟩
        · rename_i h4
          split
          · rename_i h5
            exact ⟨by simp [EpResult.isBadRequest, h1, h5], fun _ => ⟨rfl, rfl⟩⟩
          · rename_i h5
            rcases hsu : serviceUpdate store req.id req.name req.startDate req.endDate
              with ⟨res, st, calls⟩
            cases res with
            | ok u =>
              simp [hsu, EpResult.isBadRequest, h1, h2, h3, h4, h5]
            | error e =>
              simp only [hsu]
              split
              · simp [EpResult.isBadRequest, h1, h2, h3, h4, h5]
              · simp [EpResult.isBadRequest, h1, h2, h3, h4, h5]

/-- C7 witness: the empty id, the all-absent request and a
present-but-empty name are each rejected as bad-request with no gateway
call, while a request whose only present field is a non-empty name passes
these checks (here surfacing as not-found, not bad-request). -/
theorem c7_witness :
    (makeUpdateEndpoint [] ⟨"", some "N", none, none⟩).1.isBadRequest = true ∧
    (makeUpdateEndpoint [] ⟨"a", none, none, none⟩).1.isBadRequest = true ∧
    (makeUpdateEndpoint [] ⟨"a", some "", none, none⟩).1.isBadRequest = true ∧
    (makeUpdateEndpoint [] ⟨"a", some "", none, none⟩).2.2 = [] ∧
    (makeUpdateEndpoint [] ⟨"a", some "N", none, none⟩).1.isBadRequest = false := by
  refine ⟨?_, ?_, ?_, ?_, ?_⟩
  · exact (c7_update_endpoint_validation [] ⟨"", some "N", none, none⟩).1.mpr
      (by simp)
  · exact (c7_update_endpoint_validation [] ⟨"a", none, none, none⟩).1.mpr
      (by simp)
  · exact (c7_update_endpoint_validation [] ⟨"a", some "", none, none⟩).1.mpr
      (by simp)
  · exact ((c7_update_endpoint_validation [] ⟨"a", some "", none, none⟩).2
      (by decide)).2
  · have hiff := (c7_update_endpoint_validation [] ⟨"a", some "N", none, none⟩).1
    simp only [show (⟨"a", some "N", none, none⟩ : UpdateReq).id = "a" from rfl] at hiff
    by_contra hbad
    simp only [Bool.not_eq_false] at hbad
    have := hiff.mp hbad
    simp at this

/-- C10: `service.Update` reads the stored course (through `s.Get`) before
parsing any supplied date string, so for an id with no matching stored row
it returns the not-found error carrying that id — whatever the supplied
date strings contain, well-formed or not — leaving the store untouched and
invoking no gateway operation beyond the read. -/
theorem c10_update_notFound_precedes_dateFormat
    (store : List Course) (id : String) (name : Option String)
    (startDate endDate : Option String)
    (h : findCourse store id = none) :
    serviceUpdate store id name startDate endDate =
      (.error (Err.notFound id), store, [RepoCall.getC id]) := by
  simp [serviceUpdate, findCourse_none_serviceGet h]

/-- C10 witness: updating a missing id with two malformed date strings
still reports not-found, not a date-format error. -/
theorem c10_witness :
    serviceUpdate [] "missing" none (some "not-a-date") (some "also-bad") =
      (.error (Err.notFound "missing"), [], [RepoCall.getC "missing"]) :=
  c10_update_notFound_precedes_dateFormat [] "missing" none
    (some "not-a-date") (some "also-bad") (by decide)

/-- C1: on an existing course, `service.Update` re-validates the
start ≤ end invariant against the effective date pair (supplied fields
merged with the stored values): supplying only an end date earlier than
the stored start date fails with the end-before-start error; supplying
only a start date later than the stored end date fails with the
start-after-end error; when the effective pair is ordered, the update
proceeds and persists exactly the supplied fields. -/
theorem c1_update_effective_pair
    (store : List Course) (id : String) (c : Course)
    (h : findCourse store id = some c) :
    (∀ (nm : Option String) (es : String) (e : Date),
      parseDate es = some e → dateBefore e c.startDate = true →
      serviceUpdate store id nm none (some es) =
        (.error ErrEndDateBeforeStartDate, store, [RepoCall.getC id])) ∧
    (∀ (nm : Option String) (ss : String) (s : Date),
      parseDate ss = some s → dateAfter s c.endDate = true →
      serviceUpdate store id nm (some ss) none =
        (.error ErrStartDateAfterEndDate, store, [RepoCall.getC id])) ∧
    (∀ (nm : Option String) (sdo edo : Option String) (sdp edp : Option Date),
      parsedField sdo = some sdp → parsedField edo = some edp →
      dateBefore (edp.getD c.endDate) (sdp.getD c.startDate) = false →
      serviceUpdate store id nm sdo edo =
        (.ok (),
          store.map (fun r => if r.id == id then applyUpdates nm sdp edp r else r),
          [RepoCall.getC id, RepoCall.updateC id nm sdp edp])) := by
  refine ⟨?_, ?_, ?_⟩
  · intro nm es e hp hb
    rw [@serviceUpdate_eval store id c nm none (some es) none (some e)
      h rfl (by simp [parsedField, hp])]
    simp [hb]
  · intro nm ss s hp hb
    rw [@serviceUpdate_eval store id c nm (some ss) none (some s) none
      h (by simp [parsedField, hp]) rfl]
    simp [hb]
  · intro nm sdo edo sdp edp hps hpe hb
    rw [serviceUpdate_eval nm h hps hpe]
    have ha : dateAfter (sdp.getD c.startDate) (edp.getD c.endDate) = false := by
      simpa [dateBefore, dateAfter] using hb
    simp [hb, ha]

/-- C1 witness: on a store holding a course running 2024-05-10 through
2024-05-20, an end-only update to 2024-05-01 fails end-before-start, a
start-only update to 2024-06-01 fails start-after-end, and an in-range
two-date update is persisted. -/
theorem c1_witness :
    serviceUpdate [⟨"a", "Go", ⟨2024, 5, 10⟩, ⟨2024, 5, 20⟩⟩] "a"
        none none (some "2024-05-01") =
      (.error ErrEndDateBeforeStartDate,
        [⟨"a", "Go", ⟨2024, 5, 10⟩, ⟨2024, 5, 20⟩⟩], [RepoCall.getC "a"]) ∧
    serviceUpdate [⟨"a", "Go", ⟨2024, 5, 10⟩, ⟨2024, 5, 20⟩⟩] "a"
        none (some "2024-06-01") none =
      (.error ErrStartDateAfterEndDate,
        [⟨"a", "Go", ⟨2024, 5, 10⟩, ⟨2024, 5, 20⟩⟩], [RepoCall.getC "a"]) ∧
    serviceUpdate [⟨"a", "Go", ⟨2024, 5, 10⟩, ⟨2024, 5, 20⟩⟩] "a"
        none (some "2024-05-12") (some "2024-05-15") =
      (.ok (), [⟨"a", "Go", ⟨2024, 5, 12⟩, ⟨2024, 5, 15⟩⟩],
        [RepoCall.getC "a",
          RepoCall.updateC "a" none (some ⟨2024, 5, 12⟩) (some ⟨2024, 5, 15⟩)]) := by
  refine ⟨?_, ?_, ?_⟩
  · exact (c1_update_effective_pair [⟨"a", "Go", ⟨2024, 5, 10⟩, ⟨2024, 5, 20⟩⟩] "a"
      ⟨"a", "Go", ⟨2024, 5, 10⟩, ⟨2024, 5, 20⟩⟩ (by decide)).1 none "2024-05-01"
      ⟨2024, 5, 1⟩ (by decide) (by decide)
  · exact (c1_update_effective_pair [⟨"a", "Go", ⟨2024, 5, 10⟩, ⟨2024, 5, 20⟩⟩] "a"
      ⟨"a", "Go", ⟨2024, 5, 10⟩, ⟨2024, 5, 20⟩⟩ (by decide)).2.1 none "2024-06-01"
      ⟨2024, 6, 1⟩ (by decide) (by decide)
  · have := (c1_update_effective_pair [⟨"a", "Go", ⟨2024, 5, 10⟩, ⟨2024, 5, 20⟩⟩] "a"
      ⟨"a", "Go", ⟨2024, 5, 10⟩, ⟨2024, 5, 20⟩⟩ (by decide)).2.2 none
      (some "2024-05-12") (some "2024-05-15")
      (some ⟨2024, 5, 12⟩) (some ⟨2024, 5, 15⟩) (by decide) (by decide) (by decide)
    simpa using this

/-- C2: for well-formed date strings, `service.Create` with parsed start
strictly after parsed end fails with the date-order error (an error
distinct from both date-format sentinels) without touching the store or
invoking the gateway; with start ≤ end it succeeds, appends the course,
and the returned entity carries exactly the parsed dates (and the given
name). -/
theorem c2_create_date_order
    (store : List Course) (genId name startDate endDate : String)
    (s e : Date)
    (hs : parseDate startDate = some s)
    (he : parseDate endDate = some e) :
    (dateAfter s e = true →
      serviceCreate store genId name startDate endDate =
        (.error ErrStartDateAfterEndDate, store, []) ∧
      errorsIs ErrStartDateAfterEndDate ErrInvalidStartDate = false ∧
      errorsIs ErrStartDateAfterEndDate ErrInvalidEndDate = false) ∧
    (dateAfter s e = false →
      serviceCreate store genId name startDate endDate =
        (.ok ⟨genId, name, s, e⟩, store ++ [⟨genId, name, s, e⟩],
          [.createC ⟨genId, name, s, e⟩])) := by
  constructor
  · intro hgt
    refine ⟨?_, by decide, by decide⟩
    simp [serviceCreate, hs, he, hgt]
  · intro hle
    simp [serviceCreate, hs, he, hle]

/-- C2 witness: a concrete inverted pair is rejected with the date-order
error and no gateway call; a concrete ordered pair is persisted with the
parsed dates. -/
theorem c2_witness :
    serviceCreate [] "id1" "Go" "2024-01-02" "2024-01-01" =
      (.error ErrStartDateAfterEndDate, [], []) ∧
    serviceCreate [] "id1" "Go" "2024-01-01" "2024-01-02" =
      (.ok ⟨"id1", "Go", ⟨2024, 1, 1⟩, ⟨2024, 1, 2⟩⟩,
        [⟨"id1", "Go", ⟨2024, 1, 1⟩, ⟨2024, 1, 2⟩⟩],
        [.createC ⟨"id1", "Go", ⟨2024, 1, 1⟩, ⟨2024, 1, 2⟩⟩]) :=
  ⟨((c2_create_date_order [] "id1" "Go" "2024-01-02" "2024-01-01"
      ⟨2024, 1, 2⟩ ⟨2024, 1, 1⟩ (by decide) (by decide)).1 (by decide)).1,
   (c2_create_date_order [] "id1" "Go" "2024-01-01" "2024-01-02"
      ⟨2024, 1, 1⟩ ⟨2024, 1, 2⟩ (by decide) (by decide)).2 (by decide)⟩

end GoCourse
